import Mathlib

/-!
Verification of the mongo networking/counters core against its specification.

The embedding covers two source files:
* src/mongo/db/stats/counters.cpp — operation and network byte counters;
* src/mongo/executor/network_interface_tl.h — the declarations of the
  asynchronous network interface (CommandState, RequestState, AlarmState,
  StrongWeakFinishLine, the lifecycle State enum and the two registries).

The .cpp implementation of the network interface and the
StrongWeakFinishLine implementation are not part of the repository snapshot;
where a claim depends on them, the behaviour is modelled from the
specification (definitions are marked "Modelled from the spec:").
-/

namespace Mongo

/-! ## Counters (src/mongo/db/stats/counters.cpp) -/

/-- Two's-complement wrap of a signed 64-bit value, the semantics of
AtomicWord fetchAndAdd on a long long. -/
def wrap64 (x : Int) : Int := (x + 2 ^ 63) % 2 ^ 64 - 2 ^ 63

/-- The six atomic counters of OpCounters (counters.h fields backing
counters.cpp). All are long long, modelled as Int with wrap64 on add. -/
structure OpCountersState where
  insert : Int
  query : Int
  update : Int
  delete : Int
  getmore : Int
  command : Int
deriving DecidableEq, Repr

/-- Field selector for OpCounters member pointers. -/
inductive OpField
  | insert
  | query
  | update
  | delete
  | getmore
  | command
deriving DecidableEq, Repr

def getField (st : OpCountersState) : OpField → Int
  | .insert => st.insert
  | .query => st.query
  | .update => st.update
  | .delete => st.delete
  | .getmore => st.getmore
  | .command => st.command

def addField (st : OpCountersState) (f : OpField) (n : Int) : OpCountersState :=
  match f with
  | .insert => { st with insert := wrap64 (st.insert + n) }
  | .query => { st with query := wrap64 (st.query + n) }
  | .update => { st with update := wrap64 (st.update + n) }
  | .delete => { st with delete := wrap64 (st.delete + n) }
  | .getmore => { st with getmore := wrap64 (st.getmore + n) }
  | .command => { st with command := wrap64 (st.command + n) }

/-- OpCounters::_checkWrap (counters.cpp lines 70-81): fetchAndAdd the
counter by n, and if the OLD value exceeded 1<<60 reset every counter
to zero. -/
def checkWrap (st : OpCountersState) (f : OpField) (n : Int) : OpCountersState :=
  let maxCount : Int := 2 ^ 60
  let oldValue := getField st f
  let st1 := addField st f n
  if oldValue > maxCount then ⟨0, 0, 0, 0, 0, 0⟩ else st1

/-- Modelled from the spec: the spec excludes the counter subsystem's
inline wrappers and counters.h is not under src/; each gotX wrapper is the
checkWrap increment of its own field, the only use counters.cpp's
_checkWrap supports. -/
def gotInsert (st : OpCountersState) : OpCountersState := checkWrap st .insert 1

def gotQuery (st : OpCountersState) : OpCountersState := checkWrap st .query 1

def gotUpdate (st : OpCountersState) : OpCountersState := checkWrap st .update 1

def gotDelete (st : OpCountersState) : OpCountersState := checkWrap st .delete 1

def gotGetMore (st : OpCountersState) : OpCountersState := checkWrap st .getmore 1

def gotCommand (st : OpCountersState) : OpCountersState := checkWrap st .command 1

/-- Wire-protocol opcodes (util/net/message.h, outside src/); only their
distinctness matters to the gotOp switch. -/
def opReply : Int := 1

def dbUpdate : Int := 2001

def dbInsert : Int := 2002

def dbQuery : Int := 2004

def dbGetMore : Int := 2005

def dbDelete : Int := 2006

def dbKillCursors : Int := 2007

/-- OpCounters::gotOp (counters.cpp lines 42-68). The dbInsert case is an
empty break (gotInsert is commented out pending multi-insert handling);
dbKillCursors and opReply fall through to an empty break; the default case
only logs. -/
def gotOp (st : OpCountersState) (op : Int) (isCommand : Bool) : OpCountersState :=
  if op = dbInsert then st
  else if op = dbQuery then (if isCommand then gotCommand st else gotQuery st)
  else if op = dbUpdate then gotUpdate st
  else if op = dbDelete then gotDelete st
  else if op = dbGetMore then gotGetMore st
  else if op = dbKillCursors then st
  else if op = opReply then st
  else st

/-- OpCounters::getObj (counters.cpp lines 83-92): the BSON object listing
the six counters in order. -/
def getObj (st : OpCountersState) : List (String × Int) :=
  [("insert", st.insert), ("query", st.query), ("update", st.update),
   ("delete", st.delete), ("getmore", st.getmore), ("command", st.command)]

/-- The several NetworkCounter atomics (counters.h fields backing
counters.cpp lines 94-149): _together packs logicalBytesIn with requests. -/
structure NetworkCounterState where
  logicalBytesIn : Int
  requests : Int
  logicalBytesOut : Int
  physicalBytesIn : Int
  physicalBytesOut : Int
deriving DecidableEq, Repr

/-- NetworkCounter::hitPhysicalIn (counters.cpp lines 94-105). -/
def hitPhysicalIn (st : NetworkCounterState) (bytes : Int) : NetworkCounterState :=
  let maxVal : Int := 2 ^ 60
  let overflow := st.physicalBytesIn > maxVal
  if overflow then { st with physicalBytesIn := bytes }
  else { st with physicalBytesIn := wrap64 (st.physicalBytesIn + bytes) }

/-- NetworkCounter::hitPhysicalOut (counters.cpp lines 107-118). -/
def hitPhysicalOut (st : NetworkCounterState) (bytes : Int) : NetworkCounterState :=
  let maxVal : Int := 2 ^ 60
  let overflow := st.physicalBytesOut > maxVal
  if overflow then { st with physicalBytesOut := bytes }
  else { st with physicalBytesOut := wrap64 (st.physicalBytesOut + bytes) }

/-- NetworkCounter::hitLogicalIn (counters.cpp lines 120-136): on overflow
of logicalBytesIn past 1<<60, both logicalBytesIn and requests are reset
(to bytes and 1 respectively); otherwise both are bumped. -/
def hitLogicalIn (st : NetworkCounterState) (bytes : Int) : NetworkCounterState :=
  let maxVal : Int := 2 ^ 60
  let overflow := st.logicalBytesIn > maxVal
  if overflow then { st with logicalBytesIn := bytes, requests := 1 }
  else
    { st with
      logicalBytesIn := wrap64 (st.logicalBytesIn + bytes)
      requests := wrap64 (st.requests + 1) }

/-- NetworkCounter::hitLogicalOut (counters.cpp lines 138-149). -/
def hitLogicalOut (st : NetworkCounterState) (bytes : Int) : NetworkCounterState :=
  let maxVal : Int := 2 ^ 60
  let overflow := st.logicalBytesOut > maxVal
  if overflow then { st with logicalBytesOut := bytes }
  else { st with logicalBytesOut := wrap64 (st.logicalBytesOut + bytes) }

/-! ## Executor (src/mongo/executor/network_interface_tl.h)

Only the header is in the repository snapshot; where the behaviour of the
missing .cpp (or of util/strong_weak_finish_line.h) is needed it is
modelled from the spec, as marked on each definition. -/

/-- Modelled from the spec: util/strong_weak_finish_line.h is not under
src/ (the header only declares the two StrongWeakFinishLine members at
lines 150 and 199). Spec section 4.1 gives the contract and section 9 the
design: a compare-and-swap over a small state enum, open transitioning to
strong-won or weak-won on the first arrival. -/
inductive StrongWeakFinishLine
  | pending
  | strongWon
  | weakWon
deriving DecidableEq, Repr

/-- Whether an arrival at the finish line is a strong participant (a racing
attempt) or a weak one (the deadline timer or an external cancel). -/
inductive ArriveKind
  | strong
  | weak
deriving DecidableEq, Repr

/-- Modelled from the spec: one arrival at the finish line. Returns whether
this arrival was let through (is the canonical winner) and the new state.
Only the first arrival on an open line succeeds; every arrival after a win
fails and leaves the state unchanged. -/
def arrive : StrongWeakFinishLine → ArriveKind → Bool × StrongWeakFinishLine
  | .pending, .strong => (true, .strongWon)
  | .pending, .weak => (true, .weakWon)
  | .strongWon, _ => (false, .strongWon)
  | .weakWon, _ => (false, .weakWon)

/-- A sequence of arrivals, recording for each its kind and whether it was
let through. -/
def runArrives : StrongWeakFinishLine → List ArriveKind → List (ArriveKind × Bool)
  | _, [] => []
  | s, k :: ks => (k, (arrive s k).1) :: runArrives (arrive s k).2 ks

/-- The four terminal participants that can race to resolve one
CommandState's promise (spec section 4.3): an attempt's success, an
attempt's failure, the deadline timer, an external cancel. -/
inductive SessionEvent
  | attemptSuccess
  | attemptFailure
  | deadlineFired
  | externalCancel
deriving DecidableEq, Repr

/-- The outcome kinds a resolved command promise can carry (spec section
7; Cancelled also covers ShutdownInProgress-style teardown). -/
inductive Outcome
  | success
  | failure
  | timedOut
  | cancelled
deriving DecidableEq, Repr

def outcomeOf : SessionEvent → Outcome
  | .attemptSuccess => .success
  | .attemptFailure => .failure
  | .deadlineFired => .timedOut
  | .externalCancel => .cancelled

/-- Attempts are strong participants; the deadline and external cancel are
weak (spec sections 4.1 and 4.3). -/
def arriveKindOf : SessionEvent → ArriveKind
  | .attemptSuccess => .strong
  | .attemptFailure => .strong
  | .deadlineFired => .weak
  | .externalCancel => .weak

/-- The promise-relevant fields of CommandState (header lines 150-151):
the finish line and the write-once promise. resolveCount instruments how
many times the promise has been fulfilled. -/
structure CommandState where
  finishLine : StrongWeakFinishLine
  promise : Option Outcome
  resolveCount : Nat
deriving DecidableEq, Repr

def freshSession : CommandState := ⟨.pending, none, 0⟩

/-- Modelled from the spec: network_interface_tl.cpp is not under src/.
Each terminal participant arrives at the finish line with its kind and,
only if let through, fulfils the promise (CommandState::tryFinish, header
lines 122-129, is reached only by the finish-line winner). -/
def processEvent (st : CommandState) (e : SessionEvent) : CommandState :=
  if (arrive st.finishLine (arriveKindOf e)).1 then
    { finishLine := (arrive st.finishLine (arriveKindOf e)).2
      promise := some (outcomeOf e)
      resolveCount := st.resolveCount + 1 }
  else
    { st with finishLine := (arrive st.finishLine (arriveKindOf e)).2 }

/-- One whole interleaving of terminal events against a fresh session. -/
def runSession (es : List SessionEvent) : CommandState :=
  es.foldl processEvent freshSession

/-- NetworkInterfaceTL::State (header lines 257-261): kDefault, kStarted,
kStopped. The header comment (lines 255-256) fixes the transitions: start
in kDefault, move to kStarted after startup() completes, enter kStopped at
the first call to shutdown(). -/
inductive State
  | kDefault
  | kStarted
  | kStopped
deriving DecidableEq, Repr

instance : Fintype State where
  elems := {State.kDefault, State.kStarted, State.kStopped}
  complete := by intro s; cases s <;> decide

/-- The lifecycle operations that can touch _state. -/
inductive LifecycleOp
  | startup
  | shutdown
  | otherWork
deriving DecidableEq, Repr

/-- Position of a state along the forward-only lifecycle. -/
def stateRank : State → Nat
  | .kDefault => 0
  | .kStarted => 1
  | .kStopped => 2

/-- Modelled from the spec: the bodies of startup() and shutdown() are in
the missing .cpp; the transitions are those of the header comment at lines
255-256 (startup takes kDefault to kStarted; shutdown enters kStopped; all
other operations leave _state alone). -/
def stateStep : State → LifecycleOp → State
  | .kDefault, .startup => .kStarted
  | s, .startup => s
  | _, .shutdown => .kStopped
  | s, .otherWork => s

/-- Modelled from the spec: inShutdown() (header line 66) reports whether
the interface has entered shutdown, i.e. _state is kStopped. -/
def inShutdown (s : State) : Bool := s == State.kStopped

/-- The outcome kinds a resolved alarm promise can carry: fired normally,
or resolved with a cancellation outcome. -/
inductive AlarmOutcome
  | fired
  | cancelled
deriving DecidableEq, Repr

/-- AlarmState (header lines 206-221): fire time, the cancellable reactor
timer (modelled as the armed flag), and the write-once promise.
resolveCount instruments how many times the promise has been fulfilled. -/
structure AlarmState where
  when : Int
  timerArmed : Bool
  promise : Option AlarmOutcome
  resolveCount : Nat
deriving DecidableEq, Repr

/-- A freshly armed alarm (setAlarm's registered state). -/
def freshAlarm (whenVal : Int) : AlarmState := ⟨whenVal, true, none, 0⟩

/-- Modelled from the spec: _answerAlarm (header line 224) runs when the
reactor timer fires; if the alarm is still armed it disarms and resolves
the promise with the fired outcome, otherwise nothing is left to do. -/
def answerAlarm (st : AlarmState) : AlarmState :=
  if st.timerArmed then
    { st with timerArmed := false, promise := some .fired, resolveCount := st.resolveCount + 1 }
  else st

/-- Modelled from the spec: cancelAlarm (header line 84) is idempotent; if
the timer already fired (or the alarm was already cancelled) it is a no-op,
otherwise it disarms the timer and resolves the promise with a cancellation
outcome (spec section 4.4). -/
def cancelAlarm (st : AlarmState) : AlarmState :=
  if st.timerArmed then
    { st with timerArmed := false, promise := some .cancelled, resolveCount := st.resolveCount + 1 }
  else st

/-- Result of setAlarm: either the action ran synchronously with an
elapsed-deadline indication (no timer armed), or a timer was armed with a
fresh AlarmState registered. -/
inductive SetAlarmResult
  | firedSynchronouslyElapsed
  | armed (st : AlarmState)
deriving DecidableEq, Repr

/-- Modelled from the spec: setAlarm (header lines 78-80) rejects a fire
time already in the past against the monotonic clock, running the action
synchronously with an elapsed-deadline indication instead of arming a
timer; otherwise it arms the reactor timer (spec section 4.4). -/
def setAlarm (nowVal whenVal : Int) : SetAlarmResult :=
  if whenVal < nowVal then .firedSynchronouslyElapsed
  else .armed (freshAlarm whenVal)

/-- One external stimulus an armed alarm can receive. -/
inductive AlarmEvent
  | timerFired
  | cancelRequested
deriving DecidableEq, Repr

def alarmStep (st : AlarmState) : AlarmEvent → AlarmState
  | .timerFired => answerAlarm st
  | .cancelRequested => cancelAlarm st

/-- The interface-wide state that shutdown must tear down: the lifecycle
state, the resolution state of each registered command, and of each
registered alarm. -/
structure InterfaceState where
  state : State
  commands : List (Option Outcome)
  alarms : List (Option AlarmOutcome)
deriving DecidableEq, Repr

/-- Resolution applied to one command by shutdown: an outstanding
(unresolved) command is resolved with a cancellation outcome; an already
resolved command keeps its outcome. -/
def resolveOnShutdown : Option Outcome → Option Outcome
  | none => some .cancelled
  | some o => some o

/-- Resolution applied to one alarm by shutdown. -/
def resolveAlarmOnShutdown : Option AlarmOutcome → Option AlarmOutcome
  | none => some .cancelled
  | some o => some o

/-- Modelled from the spec: shutdown() (header line 65) enters kStopped at
its first call (header comment lines 255-256), cancels every registered
command and alarm (_cancelAllAlarms, header line 223), and only then
returns; the returned state is the state observed when shutdown() has
returned (spec sections 4.5 and 7). -/
def shutdownInterface (ni : InterfaceState) : InterfaceState :=
  { state := .kStopped
    commands := ni.commands.map resolveOnShutdown
    alarms := ni.alarms.map resolveAlarmOnShutdown }

/-- The command registry _inProgress (header line 267), keyed by callback
handle (modelled as Nat). -/
abbrev Registry := List (Nat × CommandState)

/-- Modelled from the spec: cancelCommand (header lines 76-77) looks the
handle up in _inProgress under the lock and, if a session is found, runs
its external-cancel path; an unknown handle is a silent no-op (spec
section 4.5). The cancel path is processEvent with externalCancel, which
the finish line turns into a no-op on an already resolved session. -/
def cancelCommand (reg : Registry) (h : Nat) : Registry :=
  reg.map (fun p => if p.1 = h then (p.1, processEvent p.2 .externalCancel) else p)

/-- The connection-holding state of one RequestState (header lines
154-204): the leased connection if one is held, the log of connections
returned to the pool, and whether the attempt has reported its result. -/
structure RequestState where
  conn : Option Nat
  returned : List Nat
  finished : Bool
deriving DecidableEq, Repr

/-- Modelled from the spec: RequestState::returnConnection (header lines
174-179) returns the current connection to the pool and unsets it locally;
with no connection held it has nothing to return. -/
def returnConnection (st : RequestState) : RequestState :=
  match st.conn with
  | some c => { st with conn := none, returned := st.returned ++ [c] }
  | none => st

/-- The three exit paths of an attempt (spec section 4.2). -/
inductive ExitPath
  | success
  | failure
  | cancel
deriving DecidableEq, Repr

/-- Modelled from the spec: the single path by which an attempt reports its
terminal result; the connection is released unconditionally before or as
part of the report, on every exit path (spec section 4.2). -/
def finishAttempt (st : RequestState) (_p : ExitPath) : RequestState :=
  let st1 := returnConnection st
  { st1 with finished := true }

/-- The kind of reference a registry declaration holds on its values. -/
inductive RefKind
  | weakRef
  | strongRef
deriving DecidableEq, Repr

/-- Declaration-level shape of a registry member of NetworkInterfaceTL. -/
structure RegistryDecl where
  refKind : RefKind
  guardedBy : String
deriving DecidableEq, Repr

/-- _inProgress (header line 267): an unordered_map from CallbackHandle to
weak_ptr of CommandState, declared under _inProgressMutex (line 265). -/
def inProgressDecl : RegistryDecl := ⟨.weakRef, "_inProgressMutex"⟩

/-- _inProgressAlarms (header lines 268-269): an unordered_map from
CallbackHandle to shared_ptr of AlarmState — an owning reference — declared
under _inProgressMutex (line 265). -/
def inProgressAlarmsDecl : RegistryDecl := ⟨.strongRef, "_inProgressMutex"⟩

/-- A concrete interface state used to witness shutdown teardown: one
outstanding and one resolved command, and one outstanding alarm. -/
def niEx : InterfaceState := ⟨.kStarted, [none, some .success], [none]⟩

/-- A concrete registry used to witness cancellation no-ops: two sessions
that have both already crossed the finish line. -/
def regEx : Registry :=
  [(1, ⟨.strongWon, some .success, 1⟩), (2, ⟨.weakWon, some .timedOut, 1⟩)]

/-! ## Helper lemmas -/

theorem arrive_resolved (s : StrongWeakFinishLine) (k : ArriveKind)
    (h : s ≠ .pending) : arrive s k = (false, s) := by
  cases s with
  | pending => exact absurd rfl h
  | strongWon => cases k <;> rfl
  | weakWon => cases k <;> rfl

theorem arrive_pending_fst (k : ArriveKind) :
    (arrive .pending k).1 = true := by
  cases k <;> rfl

theorem arrive_pending_ne (k : ArriveKind) :
    (arrive .pending k).2 ≠ StrongWeakFinishLine.pending := by
  cases k <;> decide

theorem runArrives_resolved (ks : List ArriveKind) (s : StrongWeakFinishLine)
    (h : s ≠ .pending) : runArrives s ks = ks.map (fun k => (k, false)) := by
  induction ks with
  | nil => rfl
  | cons k ks ih => simp [runArrives, arrive_resolved s k h, ih]

theorem processEvent_resolved (st : CommandState) (e : SessionEvent)
    (h : st.finishLine ≠ .pending) : processEvent st e = st := by
  have ha := arrive_resolved st.finishLine (arriveKindOf e) h
  simp [processEvent, ha]

theorem foldl_processEvent_resolved (es : List SessionEvent) (st : CommandState)
    (h : st.finishLine ≠ .pending) : es.foldl processEvent st = st := by
  induction es with
  | nil => rfl
  | cons e es ih => rw [List.foldl_cons, processEvent_resolved st e h]; exact ih

theorem processEvent_fresh (e : SessionEvent) :
    processEvent freshSession e =
      ⟨(arrive .pending (arriveKindOf e)).2, some (outcomeOf e), 1⟩ := by
  cases e <;> rfl

theorem runSession_cons (e : SessionEvent) (es : List SessionEvent) :
    runSession (e :: es) =
      ⟨(arrive .pending (arriveKindOf e)).2, some (outcomeOf e), 1⟩ := by
  show (e :: es).foldl processEvent freshSession = _
  rw [List.foldl_cons, processEvent_fresh]
  exact foldl_processEvent_resolved es _ (arrive_pending_ne _)

theorem filter_strongTrue_mapFalse (l : List ArriveKind) :
    (l.map (fun x => (x, false))).filter
      (fun p => p.1 == ArriveKind.strong && p.2) = [] := by
  induction l with
  | nil => rfl
  | cons x xs ih => simp [List.filter_cons, ih]

theorem zip_map_self {α β : Type} (f : α → β) (l : List α) :
    l.zip (l.map f) = l.map (fun a => (a, f a)) := by
  induction l with
  | nil => rfl
  | cons a l ih => simp [List.map_cons, List.zip_cons_cons, ih]

theorem resolveOnShutdown_idem (r : Option Outcome) :
    resolveOnShutdown (resolveOnShutdown r) = resolveOnShutdown r := by
  cases r <;> rfl

theorem resolveAlarmOnShutdown_idem (r : Option AlarmOutcome) :
    resolveAlarmOnShutdown (resolveAlarmOnShutdown r) = resolveAlarmOnShutdown r := by
  cases r <;> rfl

theorem map_resolveOnShutdown_idem (l : List (Option Outcome)) :
    (l.map resolveOnShutdown).map resolveOnShutdown = l.map resolveOnShutdown := by
  induction l with
  | nil => rfl
  | cons a l ih => simp [List.map_cons, resolveOnShutdown_idem, ih]

theorem map_resolveAlarmOnShutdown_idem (l : List (Option AlarmOutcome)) :
    (l.map resolveAlarmOnShutdown).map resolveAlarmOnShutdown =
      l.map resolveAlarmOnShutdown := by
  induction l with
  | nil => rfl
  | cons a l ih => simp [List.map_cons, resolveAlarmOnShutdown_idem, ih]

theorem alarmStep_disarmed (st : AlarmState) (ev : AlarmEvent)
    (h : st.timerArmed = false) : alarmStep st ev = st := by
  cases ev <;> simp [alarmStep, answerAlarm, cancelAlarm, h]

theorem foldl_alarmStep_disarmed (evs : List AlarmEvent) (st : AlarmState)
    (h : st.timerArmed = false) : evs.foldl alarmStep st = st := by
  induction evs with
  | nil => rfl
  | cons ev evs ih => rw [List.foldl_cons, alarmStep_disarmed st ev h]; exact ih

/-! ## Claim theorems -/

/-- C1: across every interleaving of attempt success, attempt failure,
deadline firing and external cancellation, a CommandState's outcome promise
is resolved exactly once, by the first participant the finish line lets
through (a winning attempt, the deadline, or an external cancel); a second
resolution is impossible by construction, since only a finish-line winner
reaches the promise and the line never lets a second arrival through
(resolveCount never exceeds 1 on any interleaving). -/
theorem commandSession_promise_resolved_exactly_once (e : SessionEvent)
    (es esAll : List SessionEvent) :
    (runSession (e :: es)).resolveCount = 1 ∧
    (runSession (e :: es)).promise = some (outcomeOf e) ∧
    (runSession esAll).resolveCount ≤ 1 := by
  refine ⟨?_, ?_, ?_⟩
  · rw [runSession_cons]
  · rw [runSession_cons]
  · cases esAll with
    | nil => exact Nat.zero_le 1
    | cons e1 es1 => rw [runSession_cons]

/-- C2: over any sequence of arrivals at a StrongWeakFinishLine, a strong
arrival is let through at most once across all callers, and every arrival
after a strong winner — strong or weak — fails. -/
theorem finishLine_strong_admits_at_most_once (ks : List ArriveKind) :
    ((runArrives .pending ks).filter
      (fun p => p.1 == ArriveKind.strong && p.2)).length ≤ 1 ∧
    ∀ l1 l2 p,
      runArrives StrongWeakFinishLine.pending ks =
        l1 ++ (ArriveKind.strong, true) :: l2 →
      p ∈ l2 → p.2 = false := by
  cases ks with
  | nil =>
    constructor
    · simp [runArrives]
    · intro l1 l2 p hEq hMem
      simp [runArrives] at hEq
  | cons k ks1 =>
    have htail : runArrives (arrive .pending k).2 ks1 =
        ks1.map (fun x => (x, false)) :=
      runArrives_resolved ks1 _ (arrive_pending_ne k)
    have hrun : runArrives .pending (k :: ks1) =
        (k, true) :: ks1.map (fun x => (x, false)) := by
      simp [runArrives, arrive_pending_fst, htail]
    constructor
    · rw [hrun, List.filter_cons]
      cases k <;> simp [filter_strongTrue_mapFalse]
    · intro l1 l2 p hEq hMem
      rw [hrun] at hEq
      cases l1 with
      | nil =>
        simp only [List.nil_append, List.cons.injEq] at hEq
        rw [← hEq.2] at hMem
        obtain ⟨x, _, hx⟩ := List.mem_map.mp hMem
        rw [← hx]
      | cons a l1t =>
        simp only [List.cons_append, List.cons.injEq] at hEq
        have hmem2 : (ArriveKind.strong, true) ∈ ks1.map (fun x => (x, false)) := by
          rw [hEq.2]
          exact List.mem_append_right _ (List.mem_cons_self _ _)
        obtain ⟨x, _, hx⟩ := List.mem_map.mp hmem2
        simp at hx

/-- C3: shutdown resolves every one of the outstanding commands and alarms
with a cancellation outcome before it returns (already-resolved operations
keep their outcome), leaves the interface stopped, and calling shutdown a
second time changes nothing (idempotent). The model resolves outstanding
work with the Cancelled outcome, one of the two kinds the spec allows. -/
theorem shutdown_resolves_all_and_idempotent (ni : InterfaceState) :
    (∀ r ∈ (shutdownInterface ni).commands, r.isSome = true) ∧
    (∀ r ∈ (shutdownInterface ni).alarms, r.isSome = true) ∧
    (∀ p ∈ ni.commands.zip (shutdownInterface ni).commands,
        p.1 = none → p.2 = some Outcome.cancelled) ∧
    (∀ p ∈ ni.alarms.zip (shutdownInterface ni).alarms,
        p.1 = none → p.2 = some AlarmOutcome.cancelled) ∧
    inShutdown (shutdownInterface ni).state = true ∧
    shutdownInterface (shutdownInterface ni) = shutdownInterface ni := by
  refine ⟨?_, ?_, ?_, ?_, rfl, ?_⟩
  · intro r hr
    obtain ⟨a, _, rfl⟩ := List.mem_map.mp hr
    cases a <;> rfl
  · intro r hr
    obtain ⟨a, _, rfl⟩ := List.mem_map.mp hr
    cases a <;> rfl
  · intro p hp h1
    rw [show (shutdownInterface ni).commands = ni.commands.map resolveOnShutdown
          from rfl, zip_map_self] at hp
    obtain ⟨a, _, rfl⟩ := List.mem_map.mp hp
    cases a with
    | none => rfl
    | some o => simp at h1
  · intro p hp h1
    rw [show (shutdownInterface ni).alarms = ni.alarms.map resolveAlarmOnShutdown
          from rfl, zip_map_self] at hp
    obtain ⟨a, _, rfl⟩ := List.mem_map.mp hp
    cases a with
    | none => rfl
    | some o => simp at h1
  · simp only [shutdownInterface, map_resolveOnShutdown_idem, map_resolveAlarmOnShutdown_idem]

/-- C4 counterexample: the lifecycle does not pass through four states —
the State enum of the header (lines 257-261) has exactly three states
(kDefault, kStarted, kStopped), so no injection of four distinct lifecycle
states into it exists; there is no separate ShuttingDown state between
Running and Stopped. -/
theorem lifecycle_has_three_states_not_four :
    Fintype.card State = 3 ∧ ¬ ∃ f : Fin 4 → State, Function.Injective f := by
  constructor
  · decide
  · decide

/-- C4 amended: the lifecycle passes only forward through the three states
kDefault (not started), kStarted (running) and kStopped (shutdown entered
directly at the first call to shutdown, with no intermediate ShuttingDown
state): no sequence of operations ever produces a reverse transition, so
once inShutdown reports true it never again reports false. -/
theorem lifecycle_monotone (s : State) (ops : List LifecycleOp) :
    stateRank s ≤ stateRank (ops.foldl stateStep s) ∧
    (inShutdown s = true → inShutdown (ops.foldl stateStep s) = true) := by
  induction ops generalizing s with
  | nil => exact ⟨Nat.le_refl _, fun h => h⟩
  | cons op ops ih =>
    rw [List.foldl_cons]
    have hstep : stateRank s ≤ stateRank (stateStep s op) := by
      cases s <;> cases op <;> decide
    constructor
    · exact Nat.le_trans hstep (ih (stateStep s op)).1
    · intro h
      have hs : s = State.kStopped := by
        cases s with
        | kStopped => rfl
        | kDefault => exact absurd h (by decide)
        | kStarted => exact absurd h (by decide)
      subst hs
      have hfix : stateStep State.kStopped op = State.kStopped := by
        cases op <;> rfl
      exact (ih (stateStep State.kStopped op)).2 (by rw [hfix]; rfl)

/-- C5 witnessed at a concrete leased attempt further below: for every
RequestState holding a leased connection, every exit path (success,
failure, cancel) returns the connection to the pool exactly once as part
of reporting the result, after which the connection slot is empty, a
further returnConnection is a no-op (never double-returned), and a second
finish adds nothing — so nothing is left for destruction alone. -/
theorem connection_returned_exactly_once (st : RequestState) (c : Nat)
    (p q : ExitPath) (h : st.conn = some c) :
    (finishAttempt st p).conn = none ∧
    (finishAttempt st p).returned = st.returned ++ [c] ∧
    (finishAttempt st p).finished = true ∧
    returnConnection (finishAttempt st p) = finishAttempt st p ∧
    finishAttempt (finishAttempt st p) q = finishAttempt st p := by
  simp [finishAttempt, returnConnection, h]

/-- C6: cancelCommand on a handle that is unknown to the _inProgress
registry, or whose session has already crossed the finish line, is a
silent no-op: the registry and every delivered outcome are unchanged. -/
theorem cancelCommand_noop (reg : Registry) (h : Nat)
    (hyp : ∀ p ∈ reg, p.1 = h → p.2.finishLine ≠ StrongWeakFinishLine.pending) :
    cancelCommand reg h = reg := by
  induction reg with
  | nil => rfl
  | cons p reg ih =>
    have hhead : (if p.1 = h then (p.1, processEvent p.2 .externalCancel) else p) = p := by
      by_cases hc : p.1 = h
      · rw [if_pos hc, processEvent_resolved p.2 _ (hyp p (List.mem_cons_self p reg) hc)]
      · rw [if_neg hc]
    show (if p.1 = h then (p.1, processEvent p.2 .externalCancel) else p) ::
        cancelCommand reg h = p :: reg
    rw [hhead, ih (fun q hq hq1 => hyp q (List.mem_cons_of_mem p hq) hq1)]

/-- C7: setAlarm with a fire time in the past fires the action
synchronously with the elapsed-deadline indication instead of arming a
timer, and otherwise arms a fresh timer; cancelAlarm is idempotent, a
no-op once the timer has fired, and otherwise disarms the timer and
resolves the promise with a cancellation outcome; on any nonempty sequence
of timer/cancel events a fresh alarm's promise is resolved exactly once. -/
theorem alarm_schedule_cancel_exactly_once (nowVal whenVal : Int)
    (st : AlarmState) (evs : List AlarmEvent) (e : AlarmEvent) :
    (whenVal < nowVal → setAlarm nowVal whenVal = SetAlarmResult.firedSynchronouslyElapsed) ∧
    (¬ whenVal < nowVal → setAlarm nowVal whenVal = SetAlarmResult.armed (freshAlarm whenVal)) ∧
    cancelAlarm (cancelAlarm st) = cancelAlarm st ∧
    cancelAlarm (answerAlarm st) = answerAlarm st ∧
    (st.timerArmed = true →
      (cancelAlarm st).promise = some AlarmOutcome.cancelled ∧
      (cancelAlarm st).timerArmed = false ∧
      (cancelAlarm st).resolveCount = st.resolveCount + 1) ∧
    ((e :: evs).foldl alarmStep (freshAlarm whenVal)).resolveCount = 1 ∧
    ((e :: evs).foldl alarmStep (freshAlarm whenVal)).promise.isSome = true := by
  refine ⟨?_, ?_, ?_, ?_, ?_, ?_⟩
  · intro h; simp [setAlarm, h]
  · intro h; simp [setAlarm, h]
  · by_cases h : st.timerArmed <;> simp [cancelAlarm, h]
  · by_cases h : st.timerArmed <;> simp [cancelAlarm, answerAlarm, h]
  · intro h; simp [cancelAlarm, h]
  · rw [List.foldl_cons]
    cases e with
    | timerFired =>
      rw [show alarmStep (freshAlarm whenVal) .timerFired =
            ⟨whenVal, false, some .fired, 1⟩ from rfl,
          foldl_alarmStep_disarmed evs _ rfl]
      exact ⟨rfl, rfl⟩
    | cancelRequested =>
      rw [show alarmStep (freshAlarm whenVal) .cancelRequested =
            ⟨whenVal, false, some .cancelled, 1⟩ from rfl,
          foldl_alarmStep_disarmed evs _ rfl]
      exact ⟨rfl, rfl⟩

/-- C8 counterexample: the alarm registry _inProgressAlarms (header lines
268-269) holds shared_ptr — owning — references, not weak ones, so the
claim that both cancellation registries hold only weak non-owning
references is false. -/
theorem alarmRegistry_not_weak :
    inProgressAlarmsDecl.refKind ≠ RefKind.weakRef := by decide

/-- C8 amended: the command registry _inProgress holds weak non-owning
references, while the alarm registry _inProgressAlarms holds owning
(shared) references that keep the AlarmState alive until resolution; both
are guarded by the same lock (_inProgressMutex) and serve cancellation
lookup. -/
theorem registries_declaration_shape :
    inProgressDecl.refKind = RefKind.weakRef ∧
    inProgressAlarmsDecl.refKind = RefKind.strongRef ∧
    inProgressDecl.guardedBy = inProgressAlarmsDecl.guardedBy := by
  refine ⟨rfl, rfl, rfl⟩

/-- C9: OpCounters::gotOp called with op equal to dbInsert, dbKillCursors
or opReply increments no counter — for any number of such calls every
field of the object returned by OpCounters::getObj is unchanged (those
switch cases are empty breaks in counters.cpp lines 44-45 and 62-64). -/
theorem gotOp_insert_killcursors_reply_noop (st : OpCountersState)
    (ops : List (Int × Bool))
    (hyp : ∀ q ∈ ops, q.1 = dbInsert ∨ q.1 = dbKillCursors ∨ q.1 = opReply) :
    getObj (ops.foldl (fun s q => gotOp s q.1 q.2) st) = getObj st := by
  induction ops with
  | nil => rfl
  | cons q ops ih =>
    rw [List.foldl_cons]
    have hq := hyp q (List.mem_cons_self q ops)
    have hgot : gotOp st q.1 q.2 = st := by
      rcases hq with h | h | h <;>
        simp [gotOp, h, dbInsert, dbKillCursors, opReply, dbQuery, dbUpdate,
          dbDelete, dbGetMore]
    rw [hgot]
    exact ih (fun q1 hq1 => hyp q1 (List.mem_cons_of_mem q hq1))

/-- C10: NetworkCounter::hitLogicalIn resets requests to 1 exactly when it
resets logicalBytesIn to bytes (stored value strictly above 1<<60), and
otherwise adds bytes to logicalBytesIn and bumps requests by exactly one;
the physical-byte counters are untouched by hitLogicalIn, and
hitPhysicalIn never touches requests or logicalBytesIn. -/
theorem hitLogicalIn_resets_requests_with_logicalBytesIn
    (st : NetworkCounterState) (bytes : Int) :
    (st.logicalBytesIn > 2 ^ 60 →
      (hitLogicalIn st bytes).logicalBytesIn = bytes ∧
      (hitLogicalIn st bytes).requests = 1) ∧
    (¬ st.logicalBytesIn > 2 ^ 60 →
      (hitLogicalIn st bytes).logicalBytesIn = wrap64 (st.logicalBytesIn + bytes) ∧
      (hitLogicalIn st bytes).requests = wrap64 (st.requests + 1)) ∧
    (hitLogicalIn st bytes).physicalBytesIn = st.physicalBytesIn ∧
    (hitLogicalIn st bytes).physicalBytesOut = st.physicalBytesOut ∧
    (hitPhysicalIn st bytes).requests = st.requests ∧
    (hitPhysicalIn st bytes).logicalBytesIn = st.logicalBytesIn := by
  refine ⟨?_, ?_, ?_, ?_, ?_, ?_⟩
  · intro h
    simp only [hitLogicalIn]
    rw [if_pos h]
    exact ⟨rfl, rfl⟩
  · intro h
    simp only [hitLogicalIn]
    rw [if_neg h]
    exact ⟨rfl, rfl⟩
  · simp only [hitLogicalIn]
    by_cases h : st.logicalBytesIn > 2 ^ 60
    · rw [if_pos h]
    · rw [if_neg h]
  · simp only [hitLogicalIn]
    by_cases h : st.logicalBytesIn > 2 ^ 60
    · rw [if_pos h]
    · rw [if_neg h]
  · simp only [hitPhysicalIn]
    by_cases h : st.physicalBytesIn > 2 ^ 60
    · rw [if_pos h]
    · rw [if_neg h]
  · simp only [hitPhysicalIn]
    by_cases h : st.physicalBytesIn > 2 ^ 60
    · rw [if_pos h]
    · rw [if_neg h]

/-! ## Witnesses -/

/-- Witness for C2 at a concrete arrival sequence: one strong then one
weak arrival; the strong winner is unique and the arrival after it is
rejected. -/
theorem finishLine_witness :
    ((runArrives .pending [ArriveKind.strong, ArriveKind.weak]).filter
      (fun p => p.1 == ArriveKind.strong && p.2)).length ≤ 1 ∧
    (ArriveKind.weak, false).2 = false :=
  ⟨(finishLine_strong_admits_at_most_once [ArriveKind.strong, ArriveKind.weak]).1,
   (finishLine_strong_admits_at_most_once [ArriveKind.strong, ArriveKind.weak]).2
     [] [(ArriveKind.weak, false)] (ArriveKind.weak, false) (by decide) (by decide)⟩

/-- Witness for C3 at the concrete interface state niEx. -/
theorem shutdown_witness :
    (some Outcome.cancelled = some Outcome.cancelled) ∧
    shutdownInterface (shutdownInterface niEx) = shutdownInterface niEx :=
  ⟨(shutdown_resolves_all_and_idempotent niEx).2.2.1
      (none, some Outcome.cancelled) (by decide) rfl,
   (shutdown_resolves_all_and_idempotent niEx).2.2.2.2.2⟩

/-- Witness for the amended C4 at the stopped state: no later operation
leaves shutdown. -/
theorem lifecycle_monotone_witness :
    stateRank State.kStopped ≤
      stateRank ([LifecycleOp.startup, LifecycleOp.otherWork].foldl stateStep State.kStopped) ∧
    inShutdown ([LifecycleOp.startup, LifecycleOp.otherWork].foldl stateStep State.kStopped) = true :=
  ⟨(lifecycle_monotone State.kStopped [LifecycleOp.startup, LifecycleOp.otherWork]).1,
   (lifecycle_monotone State.kStopped [LifecycleOp.startup, LifecycleOp.otherWork]).2 rfl⟩

/-- Witness for C5 at a concrete attempt holding connection 7. -/
theorem connection_returned_witness :
    (finishAttempt ⟨some 7, [], false⟩ ExitPath.success).conn = none ∧
    (finishAttempt ⟨some 7, [], false⟩ ExitPath.success).returned = [7] ∧
    (finishAttempt ⟨some 7, [], false⟩ ExitPath.success).finished = true ∧
    returnConnection (finishAttempt ⟨some 7, [], false⟩ ExitPath.success) =
      finishAttempt ⟨some 7, [], false⟩ ExitPath.success ∧
    finishAttempt (finishAttempt ⟨some 7, [], false⟩ ExitPath.success) ExitPath.cancel =
      finishAttempt ⟨some 7, [], false⟩ ExitPath.success :=
  connection_returned_exactly_once ⟨some 7, [], false⟩ 7 ExitPath.success ExitPath.cancel rfl

/-- Witness for C6 at the concrete registry regEx: cancelling a completed
handle and an unknown handle both leave the registry unchanged. -/
theorem cancelCommand_noop_witness :
    cancelCommand regEx 1 = regEx ∧ cancelCommand regEx 5 = regEx :=
  ⟨cancelCommand_noop regEx 1 (by decide), cancelCommand_noop regEx 5 (by decide)⟩

/-- Witness for C7: a fire time of 3 against now 5 fires synchronously; a
fresh armed alarm cancels to a cancellation outcome; a fired fresh alarm
resolves exactly once. -/
theorem alarm_witness :
    setAlarm 5 3 = SetAlarmResult.firedSynchronouslyElapsed ∧
    (cancelAlarm ⟨0, true, none, 0⟩).promise = some AlarmOutcome.cancelled ∧
    (([AlarmEvent.timerFired] : List AlarmEvent).foldl alarmStep (freshAlarm 7)).resolveCount = 1 :=
  ⟨(alarm_schedule_cancel_exactly_once 5 3 ⟨0, true, none, 0⟩ [] AlarmEvent.timerFired).1
      (by decide),
   ((alarm_schedule_cancel_exactly_once 5 3 ⟨0, true, none, 0⟩ [] AlarmEvent.timerFired).2.2.2.2.1
      rfl).1,
   (alarm_schedule_cancel_exactly_once 5 7 ⟨0, true, none, 0⟩ [] AlarmEvent.timerFired).2.2.2.2.2.1⟩

/-- Witness for C9 at a concrete call sequence: dbInsert, dbKillCursors
and opReply leave every getObj field unchanged. -/
theorem gotOp_noop_witness :
    getObj (([((2002 : Int), false), ((2007 : Int), true), ((1 : Int), false)]).foldl
      (fun s q => gotOp s q.1 q.2) ⟨1, 2, 3, 4, 5, 6⟩) = getObj ⟨1, 2, 3, 4, 5, 6⟩ :=
  gotOp_insert_killcursors_reply_noop ⟨1, 2, 3, 4, 5, 6⟩ _ (by decide)

/-- Witness for C10 on both sides of the overflow threshold. -/
theorem hitLogicalIn_witness :
    ((hitLogicalIn ⟨2 ^ 60 + 5, 9, 0, 0, 0⟩ 100).logicalBytesIn = 100 ∧
      (hitLogicalIn ⟨2 ^ 60 + 5, 9, 0, 0, 0⟩ 100).requests = 1) ∧
    ((hitLogicalIn ⟨50, 9, 0, 0, 0⟩ 100).logicalBytesIn = wrap64 (50 + 100) ∧
      (hitLogicalIn ⟨50, 9, 0, 0, 0⟩ 100).requests = wrap64 (9 + 1)) ∧
    (hitPhysicalIn ⟨50, 9, 0, 0, 0⟩ 100).requests = 9 :=
  ⟨(hitLogicalIn_resets_requests_with_logicalBytesIn ⟨2 ^ 60 + 5, 9, 0, 0, 0⟩ 100).1
      (by decide),
   (hitLogicalIn_resets_requests_with_logicalBytesIn ⟨50, 9, 0, 0, 0⟩ 100).2.1
      (by decide),
   (hitLogicalIn_resets_requests_with_logicalBytesIn ⟨50, 9, 0, 0, 0⟩ 100).2.2.2.2.1⟩

end Mongo
